import Mathlib

/-!
Verification of the foonathan/memory allocator library (version 0.4).

Shallow embedding of the components referenced by the specification:
the intrusive block list (detail/block_list.hpp, detail/block_list.cpp),
the integer ceiling log2 and the log2 size-class policy
(detail/free_list_array.cpp), the allocation-size check and the
allocator_info comparison (error.hpp), the global debug handlers
(debugging.cpp), the locked_allocator RAII handle (threading.hpp) and
the type-erased reference storage (allocator_storage.hpp).

Machine pointers are modelled as natural numbers (addresses), sizes as
natural numbers.  The per-slab header size sizeof(node) is a platform
constant (prev pointer plus stored size); all definitions take it as an
explicit parameter szNode.
-/

/- ilog2, detail/free_list_array.cpp -/

/-- Source is_power_of_two: returns (no and (no - 1)) == 0.  For the
unsigned arguments used by the library (the callers assert no != 0) the
truncated Nat subtraction agrees with the C unsigned subtraction. -/
def is_power_of_two (no : Nat) : Bool :=
  (no &&& (no - 1)) == 0

/-- Count of leading zeros of a w-bit word, the semantics of the GCC
builtin used by the first ilog2 implementation: the word width minus the
binary length of the argument (the builtin requires a nonzero argument,
which its caller guarantees). -/
def clz (w no : Nat) : Nat :=
  w - no.size

/-- Source ilog2, count-leading-zeros implementation for a w-bit unsigned
integer type: sizeof(no) * CHAR_BIT - clz(no) - is_power_of_two(no).
The library instantiates it at w = 32 and w = 64. -/
def ilog2_clz (w no : Nat) : Nat :=
  w - clz w no - (if is_power_of_two no then 1 else 0)

/-- Loop of the naive ilog2 implementation: while (no >>= 1) ++result. -/
def ilog2_loop (no result : Nat) : Nat :=
  if no / 2 = 0 then result else ilog2_loop (no / 2) (result + 1)
termination_by no
decreasing_by omega

/-- Source ilog2, naive loop implementation: result starts at 0 for a
power of two and at 1 otherwise, then the loop adds one per halving. -/
def ilog2_naive (no : Nat) : Nat :=
  ilog2_loop no (if is_power_of_two no then 0 else 1)

/- log2_access_policy, detail/free_list_array.cpp -/

/-- Source log2_access_policy::index_from_size: returns ilog2(size); the
source asserts size != 0. -/
def log2_access_policy.index_from_size (size : Nat) : Nat :=
  ilog2_naive size

/-- Source log2_access_policy::size_from_index: returns 1 << index. -/
def log2_access_policy.size_from_index (index : Nat) : Nat :=
  1 <<< index

/- block list, detail/block_list.hpp and detail/block_list.cpp -/

/-- Source block_info: a memory pointer and a size. -/
structure block_info where
  memory : Nat
  size : Nat
deriving Repr, DecidableEq

/-- Source block_list_impl: an intrusive singly linked stack of slabs.
Each slab stores a node (prev pointer, stored size) at its start; the
list is modelled as the stack of (slab address, stored size) pairs, head
first, the prev chain being the tail relation. -/
abbrev block_list_impl : Type := List (Nat × Nat)

/-- Source block_list_impl::impl_offset: returns sizeof(node), the
per-slab header size, here the parameter szNode. -/
def block_list_impl.impl_offset (szNode : Nat) : Nat :=
  szNode

/-- Source block_list_impl::push(memory, size): constructs a node at the
slab start, links it in, advances the by-reference memory pointer past
the node and returns sizeof(node).  Result: (new list, advanced memory
pointer, returned size). -/
def block_list_impl.push (szNode : Nat) (l : block_list_impl)
    (memory : Nat) (size : Nat) : block_list_impl × Nat × Nat :=
  ((memory, size) :: l, memory + szNode, szNode)

/-- Source block_list_impl::push(other): moves the top node of the other
list onto this list and returns the block past the header together with
the stored size minus sizeof(node).  The source asserts the other list is
nonempty, hence the Option result. -/
def block_list_impl.pushFrom (szNode : Nat) (l other : block_list_impl) :
    Option (block_list_impl × block_list_impl × block_info) :=
  match other with
  | [] => none
  | (a, s) :: rest => some ((a, s) :: l, rest, ⟨a + szNode, s - szNode⟩)

/-- Source block_list_impl::pop: removes the top node, returning the raw
slab address and the original stored size. -/
def block_list_impl.pop (l : block_list_impl) :
    Option (block_list_impl × block_info) :=
  match l with
  | [] => none
  | (a, s) :: rest => some (rest, ⟨a, s⟩)

/-- Source block_list_impl::top: the block past the header of the top
slab with the usable size. -/
def block_list_impl.top (szNode : Nat) (l : block_list_impl) :
    Option block_info :=
  match l with
  | [] => none
  | (a, s) :: _ => some ⟨a + szNode, s - szNode⟩

/-- Source block_list_impl::empty. -/
def block_list_impl.isEmptyImpl (l : block_list_impl) : Bool :=
  l.isEmpty

/-- Source block_list_impl move constructor: steals the head pointer and
nulls the source.  Result: (new list, moved-from list). -/
def block_list_impl.moveConstruct (l : block_list_impl) :
    block_list_impl × block_list_impl :=
  (l, [])

/-- Source block_list growth factor, fixed at 2. -/
def growth_factor : Nat := 2

/-- Source block_list (template over the upstream allocator): used and
free-cache stacks, live block count and current block size. -/
structure block_list where
  used : block_list_impl
  free : block_list_impl
  size : Nat
  cur_block_size : Nat
deriving Repr, DecidableEq

/-- Source block_list constructor: no blocks, size 0, the given initial
block size. -/
def block_list.init (block_size : Nat) : block_list :=
  ⟨[], [], 0, block_size⟩

/-- Source block_list move constructor: moves both stacks (emptying the
source ones), copies size and current block size, then zeroes the source
size.  The source cur_block_size field is left unchanged.  Result: (new
list, moved-from list). -/
def block_list.moveConstruct (other : block_list) :
    block_list × block_list :=
  let u := block_list_impl.moveConstruct other.used
  let f := block_list_impl.moveConstruct other.free
  (⟨u.1, f.1, other.size, other.cur_block_size⟩,
   ⟨u.2, f.2, 0, other.cur_block_size⟩)

/-- Source block_list::allocate.  If the free cache is empty it requests
cur_block_size bytes from the upstream allocator (the fresh address the
upstream returns is the argument fresh; the emitted request size is the
third component), pushes the slab onto used, returns the memory past the
header with the size minus the header, and doubles cur_block_size.
Otherwise it moves the top cached slab to used and returns its usable
region; no upstream request is made. -/
def block_list.allocate (szNode : Nat) (bl : block_list) (fresh : Nat) :
    block_list × block_info × Option Nat :=
  match bl.free with
  | [] =>
      let p := block_list_impl.push szNode bl.used fresh bl.cur_block_size
      let size := bl.cur_block_size - p.2.2
      ({ used := p.1, free := [], size := bl.size + 1,
         cur_block_size := bl.cur_block_size * growth_factor },
       ⟨p.2.1, size⟩, some bl.cur_block_size)
  | (a, s) :: rest =>
      ({ used := (a, s) :: bl.used, free := rest, size := bl.size + 1,
         cur_block_size := bl.cur_block_size },
       ⟨a + szNode, s - szNode⟩, none)

/-- Source block_list::deallocate: moves the top used slab back to the
free cache and decrements the count; no upstream call.  The source
asserts used is nonempty, hence the Option result. -/
def block_list.deallocate (bl : block_list) : Option block_list :=
  match bl.used with
  | [] => none
  | (a, s) :: rest =>
      some { used := rest, free := (a, s) :: bl.free,
             size := bl.size - 1, cur_block_size := bl.cur_block_size }

/-- Source block_list::shrink_to_fit: returns every cached slab to the
upstream allocator.  Result: (new state, slabs handed back upstream). -/
def block_list.shrink_to_fit (bl : block_list) :
    block_list × List (Nat × Nat) :=
  ({ bl with free := [] }, bl.free)

/-- Source block_list::next_block_size: cur_block_size minus
impl_offset. -/
def block_list.next_block_size (szNode : Nat) (bl : block_list) : Nat :=
  bl.cur_block_size - block_list_impl.impl_offset szNode

/-- An operation on a block list: an allocation (with the fresh address
the upstream allocator would return on a cache miss), a deallocation, or
shrink_to_fit. -/
inductive BLOp where
  | alloc (fresh : Nat)
  | dealloc
  | shrink
deriving Repr, DecidableEq

/-- Runs a sequence of operations on a block list and collects, for each
fresh upstream allocation in order, the pair (requested raw size, usable
size returned to the caller).  Deallocation on an empty used stack is an
assertion failure in the source and is modelled as a no-op. -/
def block_list.run (szNode : Nat) :
    block_list → List BLOp → block_list × List (Nat × Nat)
  | bl, [] => (bl, [])
  | bl, BLOp.alloc fresh :: ops =>
      let r := bl.allocate szNode fresh
      let rest := block_list.run szNode r.1 ops
      (rest.1,
       (match r.2.2 with
        | some req => [(req, r.2.1.size)]
        | none => []) ++ rest.2)
  | bl, BLOp.dealloc :: ops =>
      block_list.run szNode ((bl.deallocate).getD bl) ops
  | bl, BLOp.shrink :: ops =>
      block_list.run szNode (bl.shrink_to_fit).1 ops

/- allocator_info and check_allocation_size, error.hpp -/

/-- Source allocator_info: a name (a pointer to a static string,
modelled as an address) and an opaque allocator identity pointer. -/
structure allocator_info where
  name : Nat
  allocator : Nat
deriving Repr, DecidableEq

/-- Source operator== on allocator_info: compares only the allocator
identity pointers. -/
def allocator_info.eq (a b : allocator_info) : Bool :=
  a.allocator == b.allocator

/-- Source operator!= on allocator_info: compares only the allocator
identity pointers. -/
def allocator_info.ne (a b : allocator_info) : Bool :=
  a.allocator != b.allocator

/-- Source bad_allocation_size exception payload: the allocator_info, the
passed value and the supported upper bound. -/
structure bad_allocation_size where
  info : allocator_info
  passed : Nat
  supported : Nat
deriving Repr, DecidableEq

/-- Source detail::check_allocation_size: throws bad_allocation_size
(info, passed, supported) when passed > supported, otherwise returns
normally. -/
def check_allocation_size (passed supported : Nat) (info : allocator_info) :
    Except bad_allocation_size Unit :=
  if passed > supported then Except.error ⟨info, passed, supported⟩
  else Except.ok ()

/- global handlers, debugging.cpp -/

/-- One process-wide handler slot, debugging.cpp: the built-in default
handler and the current contents of the atomic pointer.  A handler
function pointer is a value of the abstract type H; none models the null
pointer. -/
structure handler_slot (H : Type) where
  default : H
  cur : Option H

/-- Initial state of a slot: the atomic is initialised with the built-in
default handler. -/
def handler_slot.init {H : Type} (d : H) : handler_slot H :=
  ⟨d, some d⟩

/-- Source set_Y_handler(h): atomically exchanges the slot contents with
(h ? h : default) and returns the previous contents. -/
def handler_slot.set {H : Type} (s : handler_slot H) (h : Option H) :
    handler_slot H × Option H :=
  (⟨s.default, some (h.getD s.default)⟩, s.cur)

/-- Source get_Y_handler: loads the atomic. -/
def handler_slot.get {H : Type} (s : handler_slot H) : Option H :=
  s.cur

/-- The slot state after a history of set calls starting at the initial
state. -/
def handler_slot.reach {H : Type} (d : H) (hs : List (Option H)) :
    handler_slot H :=
  hs.foldl (fun s h => (s.set h).1) (handler_slot.init d)

/-- Source set_leak_handler, debugging.cpp: exchange on the leak slot. -/
def set_leak_handler {H : Type} (s : handler_slot H) (h : Option H) :
    handler_slot H × Option H :=
  s.set h

/-- Source get_leak_handler. -/
def get_leak_handler {H : Type} (s : handler_slot H) : Option H :=
  s.get

/-- Source set_invalid_pointer_handler, debugging.cpp. -/
def set_invalid_pointer_handler {H : Type} (s : handler_slot H)
    (h : Option H) : handler_slot H × Option H :=
  s.set h

/-- Source get_invalid_pointer_handler. -/
def get_invalid_pointer_handler {H : Type} (s : handler_slot H) :
    Option H :=
  s.get

/-- Source set_buffer_overflow_handler, debugging.cpp. -/
def set_buffer_overflow_handler {H : Type} (s : handler_slot H)
    (h : Option H) : handler_slot H × Option H :=
  s.set h

/-- Source get_buffer_overflow_handler. -/
def get_buffer_overflow_handler {H : Type} (s : handler_slot H) :
    Option H :=
  s.get

/- locked_allocator, threading.hpp -/

/-- A lock or unlock call performed on the mutex with the given
identity. -/
inductive mutex_event where
  | lock (m : Nat)
  | unlock (m : Nat)
deriving Repr, DecidableEq

/-- Source detail::locked_allocator: pointers to the mutex and the
allocator, both nulled when moved from. -/
structure locked_allocator where
  mutex : Option Nat
  alloc : Option Nat
deriving Repr, DecidableEq

/-- Source locked_allocator constructor: stores both pointers and locks
the mutex once.  Result: (handle, mutex calls performed). -/
def locked_allocator.construct (m a : Nat) :
    locked_allocator × List mutex_event :=
  (⟨some m, some a⟩, [mutex_event.lock m])

/-- Source locked_allocator move constructor: copies both pointers and
nulls them in the source; touches no mutex.  Result: (new handle,
moved-from handle, mutex calls performed). -/
def locked_allocator.moveConstruct (other : locked_allocator) :
    locked_allocator × locked_allocator × List mutex_event :=
  (⟨other.mutex, other.alloc⟩, ⟨none, none⟩, [])

/-- Source locked_allocator destructor: unlocks the mutex only when the
mutex pointer is non-null. -/
def locked_allocator.destruct (l : locked_allocator) : List mutex_event :=
  match l.mutex with
  | some m => [mutex_event.unlock m]
  | none => []

/-- A chain of handles: one construction followed by n move
constructions.  Result: (last live handle, moved-from handles, mutex
calls performed so far). -/
def locked_allocator.chain (m a : Nat) :
    Nat → locked_allocator × List locked_allocator × List mutex_event
  | 0 =>
      let c := locked_allocator.construct m a
      (c.1, [], c.2)
  | n + 1 =>
      let c := locked_allocator.chain m a n
      let mv := locked_allocator.moveConstruct c.1
      (mv.1, mv.2.1 :: c.2.1, c.2.2 ++ mv.2.2)

/- type-erased reference storage, allocator_storage.hpp -/

/-- The full raw-allocator interface of allocator_traits over an
allocator with state type S: each operation consumes and produces the
allocator state, allocations also return the pointer obtained. -/
structure raw_allocator (S : Type) where
  allocate_node : S → Nat → Nat → S × Nat
  allocate_array : S → Nat → Nat → Nat → S × Nat
  deallocate_node : S → Nat → Nat → Nat → S
  deallocate_array : S → Nat → Nat → Nat → Nat → S
  max_node_size : S → Nat
  max_array_size : S → Nat
  max_alignment : S → Nat

/-- Source query enumeration of reference_storage any_allocator
base_allocator. -/
inductive query where
  | node_size
  | array_size
  | alignment
deriving Repr, DecidableEq

/-- Source basic_allocator::allocate_impl: count 1 dispatches to
traits::allocate_node, any other count to traits::allocate_array. -/
def erased.allocate_impl {S : Type} (A : raw_allocator S) (s : S)
    (count size alignment : Nat) : S × Nat :=
  if count = 1 then A.allocate_node s size alignment
  else A.allocate_array s count size alignment

/-- Source basic_allocator::deallocate_impl: count 1 dispatches to
traits::deallocate_node, any other count to traits::deallocate_array. -/
def erased.deallocate_impl {S : Type} (A : raw_allocator S) (s : S)
    (ptr count size alignment : Nat) : S :=
  if count = 1 then A.deallocate_node s ptr size alignment
  else A.deallocate_array s ptr count size alignment

/-- Source base_allocator::allocate_node: allocate_impl with count 1. -/
def erased.allocate_node {S : Type} (A : raw_allocator S) (s : S)
    (size alignment : Nat) : S × Nat :=
  erased.allocate_impl A s 1 size alignment

/-- Source base_allocator::allocate_array: allocate_impl with the given
count. -/
def erased.allocate_array {S : Type} (A : raw_allocator S) (s : S)
    (count size alignment : Nat) : S × Nat :=
  erased.allocate_impl A s count size alignment

/-- Source base_allocator::deallocate_node: deallocate_impl with
count 1. -/
def erased.deallocate_node {S : Type} (A : raw_allocator S) (s : S)
    (ptr size alignment : Nat) : S :=
  erased.deallocate_impl A s ptr 1 size alignment

/-- Source base_allocator::deallocate_array: deallocate_impl with the
given count. -/
def erased.deallocate_array {S : Type} (A : raw_allocator S) (s : S)
    (ptr count size alignment : Nat) : S :=
  erased.deallocate_impl A s ptr count size alignment

/-- Source basic_allocator::max: dispatches the query to the
corresponding traits call. -/
def erased.max {S : Type} (A : raw_allocator S) (s : S) (q : query) : Nat :=
  match q with
  | query.node_size => A.max_node_size s
  | query.array_size => A.max_array_size s
  | query.alignment => A.max_alignment s

/-- Source base_allocator::max_node_size. -/
def erased.max_node_size {S : Type} (A : raw_allocator S) (s : S) : Nat :=
  erased.max A s query.node_size

/-- Source base_allocator::max_array_size. -/
def erased.max_array_size {S : Type} (A : raw_allocator S) (s : S) : Nat :=
  erased.max A s query.array_size

/-- Source base_allocator::max_alignment. -/
def erased.max_alignment {S : Type} (A : raw_allocator S) (s : S) : Nat :=
  erased.max A s query.alignment

/-- A concrete allocator whose array allocation at count 1 is observably
different from its node allocation: allocate_node returns pointer 1,
allocate_array returns pointer 2. -/
def ctrAlloc : raw_allocator Unit where
  allocate_node := fun s _ _ => (s, 1)
  allocate_array := fun s _ _ _ => (s, 2)
  deallocate_node := fun s _ _ _ => s
  deallocate_array := fun s _ _ _ _ => s
  max_node_size := fun _ => 8
  max_array_size := fun _ => 16
  max_alignment := fun _ => 4

/- Helper lemmas about ilog2 -/

theorem ilog2_loop_eq (no result : Nat) :
    ilog2_loop no result = result + Nat.log2 no := by
  induction no using Nat.strong_induction_on generalizing result with
  | _ n ih =>
    rw [ilog2_loop]
    by_cases h : n / 2 = 0
    · have h2 : n < 2 := by omega
      unfold Nat.log2
      simp [h]
      omega
    · rw [if_neg h, ih (n / 2) (by omega)]
      conv_rhs => rw [Nat.log2]
      have h2 : n ≥ 2 := by omega
      simp [h2]
      omega

theorem testBit_true_of_le_of_lt {m j : Nat} (h1 : 2 ^ j ≤ m)
    (h2 : m < 2 ^ (j + 1)) : m.testBit j = true := by
  rw [Nat.testBit_to_div_mod]
  have hp : 2 ^ (j + 1) = 2 ^ j * 2 := pow_succ 2 j
  have hd : m / 2 ^ j = 1 := Nat.div_eq_of_lt_le (by omega) (by omega)
  simp [hd]

theorem is_power_of_two_iff {n : Nat} (hn : 1 ≤ n) :
    is_power_of_two n = true ↔ 2 ^ Nat.log2 n = n := by
  have hland : is_power_of_two n = true ↔ n &&& (n - 1) = 0 := by
    simp [is_power_of_two]
  rw [hland]
  constructor
  · intro h
    by_contra hne
    have hj1 : 2 ^ Nat.log2 n ≤ n := Nat.log2_self_le (by omega)
    have hj2 : n < 2 ^ (Nat.log2 n + 1) := Nat.lt_log2_self
    have hgt : 2 ^ Nat.log2 n < n := lt_of_le_of_ne hj1 hne
    have hb1 : n.testBit (Nat.log2 n) = true := testBit_true_of_le_of_lt hj1 hj2
    have hb2 : (n - 1).testBit (Nat.log2 n) = true :=
      testBit_true_of_le_of_lt (by omega) (by omega)
    have hb : (n &&& (n - 1)).testBit (Nat.log2 n) = true := by
      rw [Nat.testBit_land, hb1, hb2]
      rfl
    rw [h, Nat.zero_testBit] at hb
    exact Bool.false_ne_true hb
  · intro h
    apply Nat.eq_of_testBit_eq
    intro i
    rw [Nat.testBit_land, Nat.zero_testBit]
    by_cases hi : i = Nat.log2 n
    · subst hi
      have hlt : n - 1 < 2 ^ Nat.log2 n := by omega
      rw [Nat.testBit_lt_two_pow hlt, Bool.and_false]
    · have hfalse : n.testBit i = false := by
        rw [← h]
        exact Nat.testBit_two_pow_of_ne (fun he => hi he.symm)
      rw [hfalse, Bool.false_and]

theorem size_eq_log2_add_one {n : Nat} (hn : 1 ≤ n) :
    n.size = Nat.log2 n + 1 := by
  apply le_antisymm
  · rw [Nat.size_le]
    exact Nat.lt_log2_self
  · exact Nat.lt_size.mpr (Nat.log2_self_le (by omega))

theorem clog_two_eq {n : Nat} (hn : 1 ≤ n) :
    Nat.clog 2 n = Nat.log2 n + (if 2 ^ Nat.log2 n = n then 0 else 1) := by
  by_cases hp : 2 ^ Nat.log2 n = n
  · rw [if_pos hp, Nat.add_zero]
    conv_lhs => rw [← hp]
    exact Nat.clog_pow 2 _ Nat.one_lt_two
  · rw [if_neg hp]
    apply le_antisymm
    · exact (Nat.le_pow_iff_clog_le Nat.one_lt_two).mp (le_of_lt Nat.lt_log2_self)
    · by_contra hlt
      push_neg at hlt
      have h1 : Nat.clog 2 n ≤ Nat.log2 n := by omega
      have h2 : n ≤ 2 ^ Nat.log2 n :=
        le_trans (Nat.le_pow_clog Nat.one_lt_two n)
          (Nat.pow_le_pow_right (by omega) h1)
      have h3 : 2 ^ Nat.log2 n ≤ n := Nat.log2_self_le (by omega)
      exact hp (le_antisymm h3 h2)

theorem ilog2_naive_eq_clog {n : Nat} (hn : 1 ≤ n) :
    ilog2_naive n = Nat.clog 2 n := by
  have hb := is_power_of_two_iff hn
  rw [clog_two_eq hn]
  unfold ilog2_naive
  rw [ilog2_loop_eq]
  by_cases hp : 2 ^ Nat.log2 n = n
  · rw [if_pos hp, if_pos (hb.mpr hp)]
    omega
  · rw [if_neg hp, if_neg (fun hh => hp (hb.mp hh))]
    omega

theorem ilog2_clz_eq_clog {w n : Nat} (hn : 1 ≤ n) (hw : n < 2 ^ w) :
    ilog2_clz w n = Nat.clog 2 n := by
  have hb := is_power_of_two_iff hn
  have hsz : n.size = Nat.log2 n + 1 := size_eq_log2_add_one hn
  have hle : n.size ≤ w := Nat.size_le.mpr hw
  rw [clog_two_eq hn]
  unfold ilog2_clz clz
  by_cases hp : 2 ^ Nat.log2 n = n
  · rw [if_pos (hb.mpr hp), if_pos hp]
    omega
  · rw [if_neg (fun hh => hp (hb.mp hh)), if_neg hp]
    omega

/-- C3: for every n at least 1, ilog2 n equals the ceiling of log2 n
(Nat.clog 2 n), for the naive loop implementation on every natural and
for the count-leading-zeros implementation on every word width w whose
range contains n; in particular both return 0, 1, 2, 2, 3 at
n = 1, 2, 3, 4, 5. -/
theorem C3_ilog2_ceiling (n w : Nat) (hn : 1 ≤ n) :
    ilog2_naive n = Nat.clog 2 n ∧
    (n < 2 ^ w → ilog2_clz w n = Nat.clog 2 n) ∧
    ilog2_naive 1 = 0 ∧ ilog2_naive 2 = 1 ∧ ilog2_naive 3 = 2 ∧
    ilog2_naive 4 = 2 ∧ ilog2_naive 5 = 3 ∧
    ilog2_clz 32 1 = 0 ∧ ilog2_clz 32 2 = 1 ∧ ilog2_clz 32 3 = 2 ∧
    ilog2_clz 32 4 = 2 ∧ ilog2_clz 32 5 = 3 := by
  have c1 : Nat.clog 2 1 = 0 := by simp [Nat.clog]
  have c2 : Nat.clog 2 2 = 1 := by simp [Nat.clog]
  have c3 : Nat.clog 2 3 = 2 := by simp [Nat.clog]
  have c4 : Nat.clog 2 4 = 2 := by simp [Nat.clog]
  have c5 : Nat.clog 2 5 = 3 := by simp [Nat.clog]
  refine ⟨ilog2_naive_eq_clog hn, fun hw => ilog2_clz_eq_clog hn hw,
    (ilog2_naive_eq_clog (by omega)).trans c1,
    (ilog2_naive_eq_clog (by omega)).trans c2,
    (ilog2_naive_eq_clog (by omega)).trans c3,
    (ilog2_naive_eq_clog (by omega)).trans c4,
    (ilog2_naive_eq_clog (by omega)).trans c5,
    (ilog2_clz_eq_clog (by omega) (by norm_num)).trans c1,
    (ilog2_clz_eq_clog (by omega) (by norm_num)).trans c2,
    (ilog2_clz_eq_clog (by omega) (by norm_num)).trans c3,
    (ilog2_clz_eq_clog (by omega) (by norm_num)).trans c4,
    (ilog2_clz_eq_clog (by omega) (by norm_num)).trans c5⟩

/-- Witness for C3 at n = 5, w = 32. -/
theorem C3_ilog2_ceiling_witness :
    ilog2_naive 5 = Nat.clog 2 5 ∧ ilog2_clz 32 5 = Nat.clog 2 5 :=
  ⟨(C3_ilog2_ceiling 5 32 (by decide)).1,
   (C3_ilog2_ceiling 5 32 (by decide)).2.1 (by norm_num)⟩

/-- C4: the log2 access policy returns size_from_index i = 1 shifted
left by i; the bucket chosen for a size n at least 1 has node size at
least n (round-up); and index_from_size inverts size_from_index on exact
powers of two. -/
theorem C4_log2_policy (i n : Nat) (hn : 1 ≤ n) :
    log2_access_policy.size_from_index i = 1 <<< i ∧
    n ≤ log2_access_policy.size_from_index
          (log2_access_policy.index_from_size n) ∧
    log2_access_policy.index_from_size
        (log2_access_policy.size_from_index i) = i := by
  refine ⟨rfl, ?_, ?_⟩
  · unfold log2_access_policy.size_from_index log2_access_policy.index_from_size
    rw [Nat.one_shiftLeft, ilog2_naive_eq_clog hn]
    exact Nat.le_pow_clog Nat.one_lt_two n
  · unfold log2_access_policy.size_from_index log2_access_policy.index_from_size
    rw [Nat.one_shiftLeft, ilog2_naive_eq_clog (Nat.pos_pow_of_pos i (by omega))]
    exact Nat.clog_pow 2 i Nat.one_lt_two

/-- Witness for C4 at i = 3, n = 5. -/
theorem C4_log2_policy_witness :
    5 ≤ log2_access_policy.size_from_index
          (log2_access_policy.index_from_size 5) ∧
    log2_access_policy.index_from_size
        (log2_access_policy.size_from_index 3) = 3 :=
  ⟨(C4_log2_policy 3 5 (by decide)).2.1, (C4_log2_policy 3 5 (by decide)).2.2⟩

/- Block list growth -/

theorem block_list.run_growth (szNode : Nat) (ops : List BLOp)
    (bl : block_list) :
    (block_list.run szNode bl ops).1.cur_block_size =
      2 ^ (block_list.run szNode bl ops).2.length * bl.cur_block_size ∧
    ∀ k, (hk : k < (block_list.run szNode bl ops).2.length) →
      (block_list.run szNode bl ops).2.get ⟨k, hk⟩ =
        (2 ^ k * bl.cur_block_size, 2 ^ k * bl.cur_block_size - szNode) := by
  induction ops generalizing bl with
  | nil =>
    constructor
    · simp [block_list.run]
    · intro k hk
      simp [block_list.run] at hk
  | cons op ops ih =>
    cases op with
    | alloc fresh =>
      cases hfree : bl.free with
      | nil =>
        have hrun : block_list.run szNode bl (BLOp.alloc fresh :: ops) =
            ((block_list.run szNode
                { used := (fresh, bl.cur_block_size) :: bl.used, free := [],
                  size := bl.size + 1,
                  cur_block_size := bl.cur_block_size * growth_factor } ops).1,
             (bl.cur_block_size, bl.cur_block_size - szNode) ::
               (block_list.run szNode
                 { used := (fresh, bl.cur_block_size) :: bl.used, free := [],
                   size := bl.size + 1,
                   cur_block_size := bl.cur_block_size * growth_factor } ops).2) := by
          simp [block_list.run, block_list.allocate, hfree, block_list_impl.push]
        obtain ⟨ihc, ihl⟩ := ih
          { used := (fresh, bl.cur_block_size) :: bl.used, free := [],
            size := bl.size + 1,
            cur_block_size := bl.cur_block_size * growth_factor }
        rw [hrun]
        constructor
        · simp only [List.length_cons]
          rw [ihc]
          dsimp only
          rw [growth_factor]
          ring
        · intro k hk
          cases k with
          | zero =>
            simp
          | succ k =>
            simp only [List.get_cons_succ]
            have hk2 : k < (block_list.run szNode
                { used := (fresh, bl.cur_block_size) :: bl.used, free := [],
                  size := bl.size + 1,
                  cur_block_size := bl.cur_block_size * growth_factor }
                ops).2.length := by
              simpa using hk
            rw [ihl k hk2]
            dsimp only
            rw [growth_factor]
            have hc : 2 ^ k * (bl.cur_block_size * 2) =
                2 ^ (k + 1) * bl.cur_block_size := by ring
            rw [hc]
      | cons pr rest =>
        obtain ⟨a, s⟩ := pr
        have hrun : block_list.run szNode bl (BLOp.alloc fresh :: ops) =
            block_list.run szNode
              { used := (a, s) :: bl.used, free := rest, size := bl.size + 1,
                cur_block_size := bl.cur_block_size } ops := by
          simp [block_list.run, block_list.allocate, hfree]
        rw [hrun]
        have := ih
          { used := (a, s) :: bl.used, free := rest, size := bl.size + 1,
            cur_block_size := bl.cur_block_size }
        dsimp only at this
        exact this
    | dealloc =>
      have hcur : ((bl.deallocate).getD bl).cur_block_size =
          bl.cur_block_size := by
        cases hused : bl.used <;> simp [block_list.deallocate, hused]
      have hrun : block_list.run szNode bl (BLOp.dealloc :: ops) =
          block_list.run szNode ((bl.deallocate).getD bl) ops := by
        simp [block_list.run]
      rw [hrun]
      have h := ih ((bl.deallocate).getD bl)
      rw [hcur] at h
      exact h
    | shrink =>
      have hrun : block_list.run szNode bl (BLOp.shrink :: ops) =
          block_list.run szNode (bl.shrink_to_fit).1 ops := by
        simp [block_list.run]
      rw [hrun]
      have h := ih (bl.shrink_to_fit).1
      have hcur : (bl.shrink_to_fit).1.cur_block_size = bl.cur_block_size := rfl
      rw [hcur] at h
      exact h

/-- C1: for every operation sequence on a block list constructed with
initial block size B, the k-th fresh slab obtained from the upstream
allocator (k counted from 0, cached reuses in between not counted) is
requested with exactly 2 ^ k * B bytes and its usable size handed to the
caller is 2 ^ k * B minus one per-slab header szNode; cur_block_size
afterwards equals 2 ^ (number of fresh requests) * B, so it is doubled
exactly once per fresh upstream allocation and changed by nothing
else. -/
theorem C1_block_list_growth (szNode B : Nat) (ops : List BLOp) (k : Nat)
    (hk : k < (block_list.run szNode (block_list.init B) ops).2.length) :
    (block_list.run szNode (block_list.init B) ops).2.get ⟨k, hk⟩ =
      (2 ^ k * B, 2 ^ k * B - szNode) ∧
    (block_list.run szNode (block_list.init B) ops).1.cur_block_size =
      2 ^ (block_list.run szNode (block_list.init B) ops).2.length * B := by
  obtain ⟨hc, hl⟩ := block_list.run_growth szNode ops (block_list.init B)
  exact ⟨hl k hk, hc⟩

/-- Witness for C1: initial block size 64, header size 16; two fresh
allocations with a cached reuse in between, checked at k = 1. -/
theorem C1_block_list_growth_witness :
    (block_list.run 16 (block_list.init 64)
        [BLOp.alloc 0, BLOp.alloc 1000, BLOp.dealloc, BLOp.alloc 2000]).2.get
        ⟨1, by decide⟩ = (2 ^ 1 * 64, 2 ^ 1 * 64 - 16) ∧
    (block_list.run 16 (block_list.init 64)
        [BLOp.alloc 0, BLOp.alloc 1000, BLOp.dealloc, BLOp.alloc 2000]).1.cur_block_size =
      2 ^ (block_list.run 16 (block_list.init 64)
        [BLOp.alloc 0, BLOp.alloc 1000, BLOp.dealloc, BLOp.alloc 2000]).2.length * 64 :=
  C1_block_list_growth 16 64 [BLOp.alloc 0, BLOp.alloc 1000, BLOp.dealloc,
    BLOp.alloc 2000] 1 (by decide)

/-- C2: block_list::allocate always returns a block whose memory pointer
is exactly impl_offset (sizeof(node)) bytes past the raw slab start and
whose size is the raw slab size minus impl_offset, both when the slab is
fresh (raw start is the upstream pointer, raw size is cur_block_size) and
when it is reused from the cache (raw start and stored size of the cached
slab); and next_block_size always equals cur_block_size minus
impl_offset. -/
theorem C2_allocate_header_offset (szNode : Nat) (bl : block_list)
    (fresh : Nat) :
    (bl.free = [] →
      (block_list.allocate szNode bl fresh).2.1 =
        ⟨fresh + block_list_impl.impl_offset szNode,
         bl.cur_block_size - block_list_impl.impl_offset szNode⟩) ∧
    (∀ a s rest, bl.free = (a, s) :: rest →
      (block_list.allocate szNode bl fresh).2.1 =
        ⟨a + block_list_impl.impl_offset szNode,
         s - block_list_impl.impl_offset szNode⟩) ∧
    block_list.next_block_size szNode bl =
      bl.cur_block_size - block_list_impl.impl_offset szNode := by
  refine ⟨?_, ?_, rfl⟩
  · intro h
    simp [block_list.allocate, h, block_list_impl.push,
      block_list_impl.impl_offset]
  · intro a s rest h
    simp [block_list.allocate, h, block_list_impl.impl_offset]

/-- Witness for C2: header size 16; a fresh allocation at address 1000
with cur_block_size 64, and a cached reuse of the slab (5, 70). -/
theorem C2_allocate_header_offset_witness :
    (block_list.allocate 16 (block_list.mk [] [] 0 64) 1000).2.1 =
      ⟨1000 + block_list_impl.impl_offset 16,
       64 - block_list_impl.impl_offset 16⟩ ∧
    (block_list.allocate 16 (block_list.mk [] [(5, 70)] 1 64) 0).2.1 =
      ⟨5 + block_list_impl.impl_offset 16,
       70 - block_list_impl.impl_offset 16⟩ :=
  ⟨(C2_allocate_header_offset 16 (block_list.mk [] [] 0 64) 1000).1 rfl,
   (C2_allocate_header_offset 16 (block_list.mk [] [(5, 70)] 1 64) 0).2.1
     5 70 [] rfl⟩

/-- C5: check_allocation_size raises bad_allocation_size carrying
(info, passed, supported) exactly when passed is strictly greater than
supported; a request equal to the bound does not raise and the call
returns plain unit, changing nothing. -/
theorem C5_check_allocation_size (passed supported : Nat)
    (info : allocator_info) :
    (check_allocation_size passed supported info =
        Except.error ⟨info, passed, supported⟩ ↔ passed > supported) ∧
    (passed ≤ supported →
      check_allocation_size passed supported info = Except.ok ()) := by
  constructor
  · constructor
    · intro he
      by_contra hng
      simp [check_allocation_size, hng] at he
    · intro h
      simp [check_allocation_size, h]
  · intro h
    have hng : ¬ passed > supported := by omega
    simp [check_allocation_size, hng]

/-- Witness for C5: the boundary case 5 = 5 does not raise, 7 > 3
raises. -/
theorem C5_check_allocation_size_witness :
    check_allocation_size 5 5 ⟨0, 0⟩ = Except.ok () ∧
    check_allocation_size 7 3 ⟨0, 0⟩ = Except.error ⟨⟨0, 0⟩, 7, 3⟩ :=
  ⟨(C5_check_allocation_size 5 5 ⟨0, 0⟩).2 (by decide),
   (C5_check_allocation_size 7 3 ⟨0, 0⟩).1.mpr (by decide)⟩

/-- C7: after move construction, the moved-from block list is empty
(size 0, both stacks empty) and the new block list holds exactly the
used blocks, cached blocks, block count and current block size of the
source before the move. -/
theorem C7_move_construct (bl : block_list) :
    (block_list.moveConstruct bl).2.size = 0 ∧
    (block_list.moveConstruct bl).2.used = [] ∧
    (block_list.moveConstruct bl).2.free = [] ∧
    (block_list.moveConstruct bl).1.used = bl.used ∧
    (block_list.moveConstruct bl).1.free = bl.free ∧
    (block_list.moveConstruct bl).1.size = bl.size ∧
    (block_list.moveConstruct bl).1.cur_block_size = bl.cur_block_size :=
  ⟨rfl, rfl, rfl, rfl, rfl, rfl, rfl⟩

/-- C9: two allocator_info values compare equal exactly when their
allocator identity pointers are equal; the name field never influences
the comparison; and the not-equal operator is the negation of the equal
operator on every pair. -/
theorem C9_allocator_info_eq (a b : allocator_info) (n1 n2 : Nat) :
    (allocator_info.eq a b = true ↔ a.allocator = b.allocator) ∧
    allocator_info.ne a b = !allocator_info.eq a b ∧
    allocator_info.eq ⟨n1, a.allocator⟩ ⟨n2, b.allocator⟩ =
      allocator_info.eq a b := by
  refine ⟨?_, ?_, rfl⟩
  · simp [allocator_info.eq]
  · simp [allocator_info.eq, allocator_info.ne, bne]

/- Handler slots -/

theorem handler_slot.foldl_default {H : Type} (hs : List (Option H))
    (s : handler_slot H) :
    (hs.foldl (fun t h => (t.set h).1) s).default = s.default := by
  induction hs generalizing s with
  | nil => rfl
  | cons h hs ih =>
    rw [List.foldl_cons, ih]
    rfl

theorem handler_slot.foldl_isSome {H : Type} (hs : List (Option H))
    (s : handler_slot H) (h0 : s.cur.isSome = true) :
    (hs.foldl (fun t h => (t.set h).1) s).cur.isSome = true := by
  induction hs generalizing s with
  | nil => exact h0
  | cons h hs ih =>
    rw [List.foldl_cons]
    exact ih _ (by simp [handler_slot.set])

/-- C6: for each of the three global handler slots (leak,
invalid-pointer, buffer-overflow), in any state reachable from the
initial state by set calls: the set function returns the previously
installed handler, the getter never returns null, setting a non-null
handler h makes the getter return h, and setting null restores the
built-in default. -/
theorem C6_handler_slots {H : Type} (d : H) (hs : List (Option H))
    (h : Option H) (f : H) :
    ((set_leak_handler (handler_slot.reach d hs) h).2 =
        get_leak_handler (handler_slot.reach d hs)) ∧
    (get_leak_handler (handler_slot.reach d hs)).isSome = true ∧
    (h = some f →
      get_leak_handler (set_leak_handler (handler_slot.reach d hs) h).1 =
        some f) ∧
    (h = none →
      get_leak_handler (set_leak_handler (handler_slot.reach d hs) h).1 =
        some d) ∧
    ((set_invalid_pointer_handler (handler_slot.reach d hs) h).2 =
        get_invalid_pointer_handler (handler_slot.reach d hs)) ∧
    (get_invalid_pointer_handler (handler_slot.reach d hs)).isSome = true ∧
    (h = some f →
      get_invalid_pointer_handler
          (set_invalid_pointer_handler (handler_slot.reach d hs) h).1 =
        some f) ∧
    (h = none →
      get_invalid_pointer_handler
          (set_invalid_pointer_handler (handler_slot.reach d hs) h).1 =
        some d) ∧
    ((set_buffer_overflow_handler (handler_slot.reach d hs) h).2 =
        get_buffer_overflow_handler (handler_slot.reach d hs)) ∧
    (get_buffer_overflow_handler (handler_slot.reach d hs)).isSome = true ∧
    (h = some f →
      get_buffer_overflow_handler
          (set_buffer_overflow_handler (handler_slot.reach d hs) h).1 =
        some f) ∧
    (h = none →
      get_buffer_overflow_handler
          (set_buffer_overflow_handler (handler_slot.reach d hs) h).1 =
        some d) := by
  have hdef : (handler_slot.reach d hs).default = d :=
    handler_slot.foldl_default hs (handler_slot.init d)
  have hsome : (handler_slot.reach d hs).cur.isSome = true :=
    handler_slot.foldl_isSome hs (handler_slot.init d) rfl
  have hs1 : h = some f →
      ((handler_slot.reach d hs).set h).1.cur = some f := by
    rintro rfl
    simp [handler_slot.set]
  have hs2 : h = none →
      ((handler_slot.reach d hs).set h).1.cur = some d := by
    rintro rfl
    simp [handler_slot.set, hdef]
  exact ⟨rfl, hsome, hs1, hs2, rfl, hsome, hs1, hs2, rfl, hsome, hs1, hs2⟩

/-- Witness for C6: handler pointers modelled as numbers, default 0,
history installs 5 then null, then set 7 and set null are observed. -/
theorem C6_handler_slots_witness :
    get_leak_handler
        (set_leak_handler (handler_slot.reach 0 [some 5, none]) (some 7)).1 =
      some 7 ∧
    get_invalid_pointer_handler
        (set_invalid_pointer_handler
          (handler_slot.reach 0 [some 5, none]) none).1 = some 0 :=
  ⟨(C6_handler_slots 0 [some 5, none] (some 7) 7).2.2.1 rfl,
   (C6_handler_slots 0 [some 5, none] none 7).2.2.2.2.2.2.2.1 rfl⟩

/- Locked allocator -/

theorem locked_allocator.chain_eq (m a n : Nat) :
    locked_allocator.chain m a n =
      (⟨some m, some a⟩, List.replicate n ⟨none, none⟩,
       [mutex_event.lock m]) := by
  induction n with
  | zero => rfl
  | succ k ih =>
    simp [locked_allocator.chain, ih, locked_allocator.moveConstruct,
      List.replicate_succ]

theorem flatten_replicate_nil {α : Type} (n : Nat) :
    (List.replicate n ([] : List α)).flatten = [] := by
  induction n with
  | zero => rfl
  | succ k ih => simp [List.replicate_succ, ih]

/-- C10: a locked_allocator acquired once and then moved through any
chain of move constructions produces exactly one lock followed by one
unlock of the underlying mutex once every handle is destroyed: the full
event trace is the singleton lock plus the unlock of the last live
handle, every moved-from handle destructs without touching the mutex,
and the last live handle unlocks exactly once. -/
theorem C10_locked_allocator (m a n : Nat) :
    ((locked_allocator.chain m a n).2.2 ++
        locked_allocator.destruct (locked_allocator.chain m a n).1 ++
        ((locked_allocator.chain m a n).2.1.map
          locked_allocator.destruct).flatten =
      [mutex_event.lock m, mutex_event.unlock m]) ∧
    locked_allocator.destruct (locked_allocator.chain m a n).1 =
      [mutex_event.unlock m] ∧
    ∀ d ∈ (locked_allocator.chain m a n).2.1,
      locked_allocator.destruct d = [] := by
  rw [locked_allocator.chain_eq]
  refine ⟨?_, rfl, ?_⟩
  · simp [locked_allocator.destruct, List.map_replicate, flatten_replicate_nil]
  · intro d hd
    rw [List.eq_of_mem_replicate hd]
    rfl

/-- Witness for C10: mutex 7, allocator 3, two move constructions. -/
theorem C10_locked_allocator_witness :
    locked_allocator.destruct (locked_allocator.chain 7 3 2).1 =
      [mutex_event.unlock 7] ∧
    locked_allocator.destruct ⟨none, none⟩ = [] :=
  ⟨(C10_locked_allocator 7 3 2).2.1,
   (C10_locked_allocator 7 3 2).2.2 ⟨none, none⟩ (by decide)⟩

/- Type-erased reference storage -/

/-- C8 counterexample: the claim that the type-erased wrapper agrees with
the direct allocator_traits call on allocate_array for every count,
including count 1, is false: for the concrete allocator ctrAlloc, whose
direct array allocation returns pointer 2, the erased allocate_array at
count 1 dispatches to allocate_node and returns pointer 1. -/
theorem C8_counterexample :
    erased.allocate_array ctrAlloc () 1 8 8 ≠
      ctrAlloc.allocate_array () 1 8 8 := by
  decide

/-- C8 (amended): the type-erased reference storage agrees with the
direct allocator_traits interface on allocate_node, deallocate_node,
max_node_size, max_array_size and max_alignment for all arguments, and
on allocate_array and deallocate_array for every count other than 1; at
count exactly 1 the erased array calls are instead routed to the node
operations. -/
theorem C8_erased_reference_equiv {S : Type} (A : raw_allocator S) (s : S)
    (count size alignment ptr : Nat) :
    erased.allocate_node A s size alignment =
      A.allocate_node s size alignment ∧
    erased.deallocate_node A s ptr size alignment =
      A.deallocate_node s ptr size alignment ∧
    erased.max_node_size A s = A.max_node_size s ∧
    erased.max_array_size A s = A.max_array_size s ∧
    erased.max_alignment A s = A.max_alignment s ∧
    (count ≠ 1 → erased.allocate_array A s count size alignment =
        A.allocate_array s count size alignment) ∧
    (count = 1 → erased.allocate_array A s count size alignment =
        A.allocate_node s size alignment) ∧
    (count ≠ 1 → erased.deallocate_array A s ptr count size alignment =
        A.deallocate_array s ptr count size alignment) ∧
    (count = 1 → erased.deallocate_array A s ptr count size alignment =
        A.deallocate_node s ptr size alignment) := by
  refine ⟨?_, ?_, rfl, rfl, rfl, ?_, ?_, ?_, ?_⟩
  · simp [erased.allocate_node, erased.allocate_impl]
  · simp [erased.deallocate_node, erased.deallocate_impl]
  · intro h
    simp [erased.allocate_array, erased.allocate_impl, h]
  · intro h
    simp [erased.allocate_array, erased.allocate_impl, h]
  · intro h
    simp [erased.deallocate_array, erased.deallocate_impl, h]
  · intro h
    simp [erased.deallocate_array, erased.deallocate_impl, h]

/-- Witness for C8 at the allocator ctrAlloc: counts 2 and 1. -/
theorem C8_erased_reference_equiv_witness :
    erased.allocate_array ctrAlloc () 2 8 8 =
      ctrAlloc.allocate_array () 2 8 8 ∧
    erased.allocate_array ctrAlloc () 1 8 8 = ctrAlloc.allocate_node () 8 8 :=
  ⟨(C8_erased_reference_equiv ctrAlloc () 2 8 8 0).2.2.2.2.2.1 (by decide),
   (C8_erased_reference_equiv ctrAlloc () 1 8 8 0).2.2.2.2.2.2.1 rfl⟩
